import Mathlib

/-!
Shallow embedding of the MABE2 configuration environment (the Symbol /
ConfigEntry value system, ConfigScope symbol tables, and the EmplodeTools
function adapter), translated from:

  * ConfigEntry.h  (class ConfigEntry and its primitive-variable subclasses)
  * ConfigScope.h  (class ConfigScope)
  * source/Emplode/EmplodeTools.hpp (MakeTempSymbol, ConvertReturn, WrapFunction)

Modelling conventions:

  * C++ `double` values are modelled as `Rat`; every value any claim touches
    is an exact small number, so no rounding behaviour is involved.
  * Host-owned variables referenced by `ConfigEntry_Linked<T>` (field `T & var`)
    are modelled by an explicit `Host` store of numeric and string cells; a
    linked entry holds the index of its cell, and copying the entry copies the
    index, exactly as copying the C++ object copies the reference.
  * Heap identity of `emp::Ptr<ConfigEntry>` objects inside one scope is
    modelled by an `id : Nat` carried by each entry: the scope's
    `entry_map` maps names to ids, and dereferencing a pointer from the map is
    modelled by looking the id up in the scope's two entry lists.
  * `emp_assert` failures (debug builds abort) and out-of-bounds `emp::vector`
    accesses are modelled by an `Option` result being `none`.
-/

namespace MABE

/-- The `Format` enumeration of `ConfigEntry` (ConfigEntry.h). -/
inductive Format : Type where
  | NONE | SCOPE
  | BOOL | INT | UNSIGNED | DOUBLE
  | STRING | FILENAME | PATH | URL | ALPHABETIC | ALPHANUMERIC | NUMERIC
deriving DecidableEq, Repr

/-- The store of host-owned native variables that `ConfigEntry_Linked<T>`
objects refer to (`T & var`): numeric cells and string cells, addressed by
index. -/
structure Host : Type where
  dvars : List Rat
  svars : List String
deriving DecidableEq, Repr

mutual

/-- A `ConfigEntry` (the spec calls it a Symbol).  Fields follow
ConfigEntry.h: `name`, `desc`, `default_val`, the non-owning back reference
`scope` (modelled as the owning scope's id, `none` for null), the
`is_temporary` flag, the `format` tag, the numeric `range` (lower and upper
bound) and `integer_only`.  The `id` models the allocation identity of the
underlying heap object (see module comment).  The payload `val` selects the
concrete subclass. -/
inductive Entry : Type where
  | mk (id : Nat) (name desc default_val : String) (scopeRef : Option Nat)
       (is_temporary : Bool) (format : Format) (range_lo range_hi : Rat)
       (integer_only : Bool) (val : EntryVal)

/-- The concrete subclasses of `ConfigEntry`:
`ConfigEntry_Linked<T>` for numeric `T` (holds a reference to a host numeric
variable), `ConfigEntry_Linked<std::string>`, `ConfigEntry_DoubleVar`,
`ConfigEntry_StringVar`, and `ConfigScope`. -/
inductive EntryVal : Type where
  | linked (ref : Nat)
  | linkedStr (ref : Nat)
  | doubleVar (v : Rat)
  | stringVar (v : String)
  | scope (body : ScopeBody)

/-- The scope-specific state of a `ConfigScope` (ConfigScope.h):
`entry_list` (declared entries, in order), `builtin_list` (built-in entries,
in order), `entry_map` (name to entry-pointer map, modelled as an association
list from names to entry ids), and the `type` string. -/
inductive ScopeBody : Type where
  | mk (entry_list builtin_list : List Entry)
       (entry_map : List (String × Nat)) (type : String)

end

/-- Accessor for the allocation id. -/
def Entry.getId : Entry → Nat
  | .mk i _ _ _ _ _ _ _ _ _ _ => i

/-- Accessor: `GetName()`. -/
def Entry.getName : Entry → String
  | .mk _ n _ _ _ _ _ _ _ _ _ => n

/-- Accessor: `GetDesc()`. -/
def Entry.getDesc : Entry → String
  | .mk _ _ d _ _ _ _ _ _ _ _ => d

/-- Accessor: `GetDefaultVal()`. -/
def Entry.getDefaultVal : Entry → String
  | .mk _ _ _ dv _ _ _ _ _ _ _ => dv

/-- Accessor: `GetScope()` (the non-owning back reference, as an id). -/
def Entry.getScopeRef : Entry → Option Nat
  | .mk _ _ _ _ sr _ _ _ _ _ _ => sr

/-- Accessor: `IsTemporary()`. -/
def Entry.getTemporary : Entry → Bool
  | .mk _ _ _ _ _ t _ _ _ _ _ => t

/-- Accessor: `GetFormat()`. -/
def Entry.getFormat : Entry → Format
  | .mk _ _ _ _ _ _ f _ _ _ _ => f

/-- Accessor for the lower bound of the `range` field. -/
def Entry.getRangeLo : Entry → Rat
  | .mk _ _ _ _ _ _ _ lo _ _ _ => lo

/-- Accessor for the upper bound of the `range` field. -/
def Entry.getRangeHi : Entry → Rat
  | .mk _ _ _ _ _ _ _ _ hi _ _ => hi

/-- Accessor for the `integer_only` flag. -/
def Entry.getIntegerOnly : Entry → Bool
  | .mk _ _ _ _ _ _ _ _ _ io _ => io

/-- Accessor for the subclass payload. -/
def Entry.getVal : Entry → EntryVal
  | .mk _ _ _ _ _ _ _ _ _ _ v => v

/-- Accessor for a scope's `entry_list`. -/
def ScopeBody.entryList : ScopeBody → List Entry
  | .mk el _ _ _ => el

/-- Accessor for a scope's `builtin_list`. -/
def ScopeBody.builtinList : ScopeBody → List Entry
  | .mk _ bl _ _ => bl

/-- Accessor for a scope's `entry_map`. -/
def ScopeBody.entryMap : ScopeBody → List (String × Nat)
  | .mk _ _ m _ => m

/-- Accessor for a scope's `type` string. -/
def ScopeBody.scopeType : ScopeBody → String
  | .mk _ _ _ ty => ty

/-- `IsScope()`: true exactly for the `ConfigScope` subclass. -/
def Entry.isScope (e : Entry) : Bool :=
  match e.getVal with
  | .scope _ => true
  | _ => false

/-- Lookup in an `emp::map<std::string, entry_ptr_t>`, modelled on the
association list (`find`). -/
def mapFind : List (String × Nat) → String → Option Nat
  | [], _ => none
  | (k, i) :: rest, key => if k = key then some i else mapFind rest key

/-- Assignment `entry_map[name] = new_ptr` on an `emp::map`: insert the key
or overwrite the binding of an existing key. -/
def mapAssign : List (String × Nat) → String → Nat → List (String × Nat)
  | [], key, i => [(key, i)]
  | (k, j) :: rest, key, i =>
      if k = key then (key, i) :: rest else (k, j) :: mapAssign rest key i

/-- Find the entry with a given allocation id in a list of entries
(dereferencing an `entry_ptr_t` into the owning lists). -/
def findInList : List Entry → Nat → Option Entry
  | [], _ => none
  | e :: rest, i => if e.getId = i then some e else findInList rest i

/-- Does a list of entries contain the entry with the given id? -/
def containsId (es : List Entry) (i : Nat) : Bool :=
  (findInList es i).isSome

/-- Dereference an entry id against a scope's two owning lists (declared
entries first, then built-ins). -/
def ScopeBody.findById (b : ScopeBody) (i : Nat) : Option Entry :=
  match findInList b.entryList i with
  | some e => some e
  | none => findInList b.builtinList i

/-- `ConfigScope::GetEntry(in_name)`: look the name up in `entry_map`; if
unknown return null, otherwise return the mapped entry. -/
def ScopeBody.getLocal (b : ScopeBody) (nm : String) : Option Entry :=
  match mapFind b.entryMap nm with
  | none => none
  | some i => b.findById i

/-- `ConfigScope::LookupEntry(in_name, scan_scopes)`.  The chain of `scope`
back pointers from the receiver to the root is passed explicitly: the head of
the list is the receiving scope, the tail its ancestors.  Translated from
ConfigScope.h: check the local map; if the name is unknown then fail when
there is no parent or `scan_scopes` is false, and otherwise delegate to the
parent (which is called with the default `scan_scopes = true`). -/
def lookupEntryChain : List ScopeBody → String → Bool → Option Entry
  | [], _, _ => none
  | b :: outer, nm, scan =>
      match b.getLocal nm with
      | some e => some e
      | none =>
          if outer.isEmpty || !scan then none
          else lookupEntryChain outer nm true

/-- Model of `emp::to_string` on a numeric value.  The exact text produced
for non-integral values is immaterial to every claim; only which text is
chosen matters. -/
def numToString (v : Rat) : String := toString v

/-- Accumulate a decimal digit list into a natural number. -/
def digitsVal (cs : List Char) : Nat :=
  cs.foldl (fun a c => a * 10 + (c.toNat - 48)) 0

/-- Model of `emp::from_string<double>`: parse an optional sign, an integer
part, and an optional fraction part. -/
def numFromString (s : String) : Rat :=
  let p := fun (cs : List Char) =>
    let ip := cs.takeWhile Char.isDigit
    let rest := cs.dropWhile Char.isDigit
    match rest with
    | '.' :: frac =>
        let fd := frac.takeWhile Char.isDigit
        (digitsVal ip : Rat) + (digitsVal fd : Rat) / ((10 : Rat) ^ fd.length)
    | _ => (digitsVal ip : Rat)
  match s.data with
  | '-' :: cs => -(p cs)
  | cs => p cs

/-- `AsString()` dispatch for the non-scope subclasses: linked numeric
entries print the host variable, linked string entries return it, owned
variables return their stored value (ConfigEntry.h).  For a scope the base
`ConfigEntry::AsString` is an assertion failure that returns `""`. -/
def EntryVal.asStr : EntryVal → Host → String
  | .linked r, h => numToString (h.dvars.getD r 0)
  | .linkedStr r, h => h.svars.getD r ""
  | .doubleVar v, _ => numToString v
  | .stringVar v, _ => v
  | .scope _, _ => ""

/-- `AsDouble()` dispatch: linked numeric entries read the host variable,
string kinds parse (`emp::from_string<double>`), owned doubles return their
value.  For a scope the base `ConfigEntry::AsDouble` is an assertion failure
that returns `0.0`. -/
def EntryVal.asDbl : EntryVal → Host → Rat
  | .linked r, h => h.dvars.getD r 0
  | .linkedStr r, h => numFromString (h.svars.getD r "")
  | .doubleVar v, _ => v
  | .stringVar v, _ => numFromString v
  | .scope _, _ => 0

/-- `ConfigEntry::AsString()` (virtual dispatch). -/
def Entry.asString (e : Entry) (h : Host) : String := e.getVal.asStr h

/-- `ConfigEntry::AsDouble()` (virtual dispatch). -/
def Entry.asDouble (e : Entry) (h : Host) : Rat := e.getVal.asDbl h

/-- Replace the subclass payload of an entry, keeping every base-class
field. -/
def Entry.withVal : Entry → EntryVal → Entry
  | .mk i n d dv sr t f lo hi io _, v => .mk i n d dv sr t f lo hi io v

/-- `SetValue(double)` dispatch (ConfigEntry.h): a linked numeric entry
writes through to the host variable (`var = (T) in`), a linked string entry
stores the printed number, owned variables update their stored value; the
base class (reached for a scope) asserts and leaves everything unchanged. -/
def Entry.setValue (e : Entry) (v : Rat) (h : Host) : Entry × Host :=
  match e.getVal with
  | .linked r => (e, { h with dvars := h.dvars.set r v })
  | .linkedStr r => (e, { h with svars := h.svars.set r (numToString v) })
  | .doubleVar _ => (e.withVal (.doubleVar v), h)
  | .stringVar _ => (e.withVal (.stringVar (numToString v)), h)
  | .scope _ => (e, h)

/-- `SetString(text)` dispatch (ConfigEntry.h): linked numeric entries parse
and write through (`var = emp::from_string<T>(in)`), string kinds store the
text, owned doubles parse it; the base class (reached for a scope) asserts
and leaves everything unchanged. -/
def Entry.setString (e : Entry) (s : String) (h : Host) : Entry × Host :=
  match e.getVal with
  | .linked r => (e, { h with dvars := h.dvars.set r (numFromString s) })
  | .linkedStr r => (e, { h with svars := h.svars.set r s })
  | .doubleVar _ => (e.withVal (.doubleVar (numFromString s)), h)
  | .stringVar _ => (e.withVal (.stringVar s), h)
  | .scope _ => (e, h)

/-- `SetName(in)`. -/
def Entry.setName : Entry → String → Entry
  | .mk i _ d dv sr t f lo hi io v, n => .mk i n d dv sr t f lo hi io v

/-- `SetDesc(in)`. -/
def Entry.setDesc : Entry → String → Entry
  | .mk i n _ dv sr t f lo hi io v, d => .mk i n d dv sr t f lo hi io v

/-- `SetDefault(in)`. -/
def Entry.setDefault : Entry → String → Entry
  | .mk i n d _ sr t f lo hi io v, dv => .mk i n d dv sr t f lo hi io v

/-- `SetTemporary(in)`. -/
def Entry.setTemporary : Entry → Bool → Entry
  | .mk i n d dv sr _ f lo hi io v, t => .mk i n d dv sr t f lo hi io v

/-- `SetMin(min)` from ConfigEntry.h: `range.SetLower(min)`. -/
def Entry.setMin : Entry → Rat → Entry
  | .mk i n d dv sr t f _ hi io v, m => .mk i n d dv sr t f m hi io v

/-- `SetMax(max)` from ConfigEntry.h.  The source line is
`ConfigEntry & SetMax(double max) { range.SetLower(max); return *this; }`:
it calls `SetLower`, so the LOWER bound is assigned and the upper bound is
left untouched. -/
def Entry.setMax : Entry → Rat → Entry
  | .mk i n d dv sr t f _ hi io v, m => .mk i n d dv sr t f m hi io v

/-- `CopyValue(in)` dispatch (ConfigEntry.h): numeric kinds assign from
`in.AsDouble()`, string kinds from `in.AsString()`, each returning true; the
base class (reached for a scope) returns false. -/
def Entry.copyValue (e other : Entry) (h : Host) : Entry × Host × Bool :=
  match e.getVal with
  | .linked r => (e, { h with dvars := h.dvars.set r (other.asDouble h) }, true)
  | .linkedStr r => (e, { h with svars := h.svars.set r (other.asString h) }, true)
  | .doubleVar _ => (e.withVal (.doubleVar (other.asDouble h)), h, true)
  | .stringVar _ => (e.withVal (.stringVar (other.asString h)), h, true)
  | .scope _ => (e, h, false)

/-- Rebuild a scope's name map from a list of entries, in order
(`entry_map[x->GetName()] = new_ptr` for each cloned child in the
`ConfigScope` copy constructor). -/
def rebuildMap (es : List Entry) (m : List (String × Nat)) : List (String × Nat) :=
  es.foldl (fun acc e => mapAssign acc e.getName e.getId) m

mutual

/-- `Clone()` dispatch.  Every subclass clones with
`emp::NewPtr<this_t>(*this)` and a defaulted copy constructor, so a linked
entry's clone copies the REFERENCE to the host variable (the `ref` index
here), while owned variables copy their stored value; a `ConfigScope` clone
runs the `ConfigScope` copy constructor, which clones every declared child,
then every built-in child, rebuilding the name map to point at the cloned
children.  Allocation ids are reused by the clone; they only ever resolve a
scope's own map into its own lists (see the module comment). -/
def Entry.clone : Entry → Entry
  | .mk i n d dv sr t f lo hi io v => .mk i n d dv sr t f lo hi io v.cloneVal

/-- Clone dispatch on the subclass payload. -/
def EntryVal.cloneVal : EntryVal → EntryVal
  | .linked r => .linked r
  | .linkedStr r => .linkedStr r
  | .doubleVar v => .doubleVar v
  | .stringVar v => .stringVar v
  | .scope b => .scope b.cloneBody

/-- The scope part of `ConfigScope`'s copy constructor. -/
def ScopeBody.cloneBody : ScopeBody → ScopeBody
  | .mk el bl _ ty =>
      let el2 := cloneList el
      let bl2 := cloneList bl
      .mk el2 bl2 (rebuildMap bl2 (rebuildMap el2 [])) ty

/-- Clone each entry of a list, in order. -/
def cloneList : List Entry → List Entry
  | [] => []
  | e :: rest => e.clone :: cloneList rest

end

mutual

/-- `UpdateDefault()` dispatch: the base class (all primitive kinds) sets
`default_val = ""`; `ConfigScope` recursively updates every declared child
and then sets its own `default_val = ""` (ConfigScope.h). -/
def Entry.updateDefault : Entry → Entry
  | .mk i n d _ sr t f lo hi io (.scope (.mk el bl m ty)) =>
      .mk i n d "" sr t f lo hi io (.scope (.mk (updateDefaultList el) bl m ty))
  | .mk i n d _ sr t f lo hi io v => .mk i n d "" sr t f lo hi io v

/-- Apply `UpdateDefault` to each entry of a list. -/
def updateDefaultList : List Entry → List Entry
  | [] => []
  | e :: rest => e.updateDefault :: updateDefaultList rest

end

/-- A string of `n` spaces: the output of the comment-alignment loop
`while (char_count++ < comment_offset) os << " "`, which prints
`comment_offset - char_count` spaces (none when already past the column). -/
def spaces (n : Nat) : String := String.mk (List.replicate n ' ')

/-- `ConfigEntry::Write(os, prefix, comment_offset)` for the non-scope kinds
(ConfigEntry.h): print `prefix name = `, then the stored `default_val` if it
is non-empty and otherwise `AsString()`, then `;`, then, if a description is
present, spaces up to the comment column followed by `// desc`, then a
newline.  `valstr` is the entry's `AsString()` text. -/
def baseWrite (nm ds dv valstr ind : String) (off : Nat) : String :=
  let valtext := if dv ≠ "" then dv else valstr
  ind ++ nm ++ " = " ++ valtext ++ ";" ++
    (if ds ≠ "" then
      spaces (off - (ind.length + nm.length + 3 + valtext.length + 1)) ++ "// " ++ ds
     else "") ++
    "\n"

mutual

/-- `Write` dispatch: `ConfigScope::Write` prints
`prefix name = { `, the aligned `// desc` comment if a description is
present, a newline, then `WriteContents` over the DECLARED entries only with
the prefix extended by two spaces, and finally `prefix }` and a newline; all
other kinds use the base `ConfigEntry::Write`. -/
def entryWrite : Entry → Host → String → Nat → String
  | .mk _ nm ds _ _ _ _ _ _ _ (.scope (.mk el _ _ _)), h, ind, off =>
      ind ++ nm ++ " = \x7b " ++
        (if ds ≠ "" then
          spaces (off - (ind.length + nm.length + 5)) ++ "// " ++ ds
         else "") ++
        "\n" ++
        writeEntryList el h (ind ++ "  ") off ++
        ind ++ "\x7d\n"
  | .mk _ nm ds dv _ _ _ _ _ _ v, h, ind, off =>
      baseWrite nm ds dv (v.asStr h) ind off

/-- The loop of `ConfigScope::WriteContents`: write each entry of the list in
order. -/
def writeEntryList : List Entry → Host → String → Nat → String
  | [], _, _, _ => ""
  | e :: rest, h, ind, off => entryWrite e h ind off ++ writeEntryList rest h ind off

end

/-- `ConfigScope::WriteContents(os, prefix, comment_offset)`: write every
entry of `entry_list` (built-ins are not visited). -/
def ScopeBody.writeContents (b : ScopeBody) (h : Host) (ind : String) (off : Nat) : String :=
  writeEntryList b.entryList h ind off

/-- `ConfigScope::Add<T>(name, args...)`: allocate the new entry, append it
to `entry_list`, and set `entry_map[name]` to it.  There is no check whether
the name is already present: the map assignment overwrites any existing
binding. -/
def ScopeBody.addEntry : ScopeBody → Entry → ScopeBody
  | .mk el bl m ty, e => .mk (el ++ [e]) bl (mapAssign m e.getName e.getId) ty

/-- `ConfigScope::AddBuiltin<T>(name, args...)`: as `Add`, but the new entry
is appended to `builtin_list`; the map assignment is identical. -/
def ScopeBody.addBuiltinEntry : ScopeBody → Entry → ScopeBody
  | .mk el bl m ty, e => .mk el (bl ++ [e]) (mapAssign m e.getName e.getId) ty

/-- A freshly constructed, empty `ConfigScope` body. -/
def emptyScopeBody (ty : String) : ScopeBody := .mk [] [] [] ty

/-- The entry allocated by `AddValueVar(name, desc)`:
`Add<ConfigEntry_DoubleVar>(name, 0.0, desc, this)`.  Base-class fields take
their ConfigEntry.h initial values (`default_val = ""`, not temporary,
`format = NONE`; the `range` default is immaterial to the claims and is
taken as zero). -/
def mkDoubleVar (i : Nat) (nm desc : String) (parent : Option Nat) : Entry :=
  .mk i nm desc "" parent false .NONE 0 0 false (.doubleVar 0)

/-- The entry allocated by `AddStringVar(name, desc)`:
`Add<ConfigEntry_StringVar>(name, "", desc, this)`. -/
def mkStringVar (i : Nat) (nm desc : String) (parent : Option Nat) : Entry :=
  .mk i nm desc "" parent false .NONE 0 0 false (.stringVar "")

/-- The entry allocated by `LinkVar(name, var, desc, default)` for a numeric
host variable: `Add<ConfigEntry_Linked<VAR_T>>(name, var, desc, this)`,
where `r` is the host cell the reference `var` designates. -/
def mkLinkedVar (i : Nat) (nm desc : String) (parent : Option Nat) (r : Nat) : Entry :=
  .mk i nm desc "" parent false .NONE 0 0 false (.linked r)

/-- The entry allocated by `LinkVar` for a `std::string` host variable. -/
def mkLinkedStrVar (i : Nat) (nm desc : String) (parent : Option Nat) (r : Nat) : Entry :=
  .mk i nm desc "" parent false .NONE 0 0 false (.linkedStr r)

/-- The entry allocated by `AddScope(name, desc, type)`:
`Add<ConfigScope>(name, desc, this, type)`, whose body is then populated
through the returned reference; `body` is the populated body. -/
def mkScopeEntry (i : Nat) (nm desc : String) (parent : Option Nat) (body : ScopeBody) : Entry :=
  .mk i nm desc "" parent false .NONE 0 0 false (.scope body)

/-- Update, in a list of owned entries, the one whose allocation id is `i`,
by calling `SetValue(v)` on it; the host store threads through.  This models
calling `SetValue` on the pointer obtained from the scope's map. -/
def setValueInList : List Entry → Nat → Rat → Host → List Entry × Host
  | [], _, _, h => ([], h)
  | e :: rest, i, v, h =>
      if e.getId = i then
        let p := e.setValue v h
        (p.1 :: rest, p.2)
      else
        let p := setValueInList rest i v h
        (e :: p.1, p.2)

/-- `scope.LookupEntry(name, false)->SetValue(v)`: resolve the name in the
scope's map and call `SetValue` on the designated child (a no-op when the
name is absent). -/
def ScopeBody.setChildValue (b : ScopeBody) (nm : String) (v : Rat) (h : Host) :
    ScopeBody × Host :=
  match mapFind b.entryMap nm with
  | none => (b, h)
  | some i =>
      if containsId b.entryList i then
        let p := setValueInList b.entryList i v h
        (.mk p.1 b.builtinList b.entryMap b.scopeType, p.2)
      else
        let p := setValueInList b.builtinList i v h
        (.mk b.entryList p.1 b.entryMap b.scopeType, p.2)

/-- The value the named child of a scope currently shows:
`scope.LookupEntry(name, false)->AsDouble()` (zero when absent). -/
def ScopeBody.childAsDouble (b : ScopeBody) (nm : String) (h : Host) : Rat :=
  match b.getLocal nm with
  | some e => e.asDouble h
  | none => 0

/-- Is every entry of the list non-temporary? -/
def allNonTemporaryList (es : List Entry) : Bool :=
  es.all (fun e => !e.getTemporary)

/-- Does a scope hold only non-temporary children?  Every entry a
`ConfigScope` ever allocates (`Add` / `AddBuiltin` and the constructors
above) is non-temporary, so this holds of every scope the program builds. -/
def ScopeBody.allNonTemporary (b : ScopeBody) : Bool :=
  allNonTemporaryList b.entryList && allNonTemporaryList b.builtinList

end MABE

namespace EmplodeTools

open MABE

/-- `EmplodeTools::MakeTempSymbol(value)` for an arithmetic value:
`emp::NewPtr<Symbol_Var<VALUE_T>>("__Temp", value, "", nullptr)` followed by
`SetTemporary()`.  The symbol's name is the literal `"__Temp"`, its
description and default are empty, its scope pointer is null, and it is
marked temporary. -/
def makeTempSymbolNum (value : Rat) : Entry :=
  (Entry.mk 0 "__Temp" "" "" none false .NONE 0 0 false (.doubleVar value)).setTemporary true

/-- `EmplodeTools::MakeTempSymbol(value)` for a `std::string` value. -/
def makeTempSymbolStr (value : String) : Entry :=
  (Entry.mk 0 "__Temp" "" "" none false .NONE 0 0 false (.stringVar value)).setTemporary true

/-- The return values a wrapped native callable may produce: an already
allocated symbol pointer, a `std::string`, or an arithmetic value.  Any
other C++ return type fails the `static_assert` in
`EmplodeTools::ConvertReturn` at compile time, which the closedness of this
type mirrors. -/
inductive RetVal : Type where
  | symbol (s : Entry)
  | str (s : String)
  | num (v : Rat)

/-- `EmplodeTools::ConvertReturn(return_value)`: a symbol pointer passes
through unchanged; a string or arithmetic value is wrapped with
`MakeTempSymbol`. -/
def convertReturn : RetVal → Entry
  | .symbol s => s
  | .str s => makeTempSymbolStr s
  | .num v => makeTempSymbolNum v

/-- The diagnostic printed to `std::cerr` by the arity check of
`WrapFunction_impl::ConvertFun` (arity at least one). -/
def arityErrMsg (nm : String) (expected received : Nat) : String :=
  "Error in call to function \x27" ++ nm ++ "\x27; expected " ++ toString expected
    ++ " arguments, but received " ++ toString received ++ "."

/-- The wrapper produced by
`WrapFunction_impl<RETURN_T(), emp::ValPack<>>::ConvertFun` (the
zero-argument specialization).  Its body is
`emp_assert(args.size() == 0, ...); return ConvertReturn(fun());`: nothing
is ever printed to the error stream; under debug semantics a non-empty
argument list fails the assertion (modelled as a `none` result), and
otherwise the call proceeds.  The first component is the list of error-
stream lines (always empty here). -/
def convertFun0 (f : Unit → RetVal) (args : List Entry) :
    List String × Option Entry :=
  if args.length = 0 then ([], some (convertReturn (f ())))
  else ([], none)

/-- The wrapper produced by `WrapFunction_impl<RETURN_T(PARAM1_T, PARAM_Ts...),
emp::ValPack<...>>::ConvertFun` for positional numeric parameters (declared
arity `n`, with `n` at least one).  If `args.size() != NUM_PARAMS` the
diagnostic naming the function, the expected count and the received count is
printed to `std::cerr`, and execution then proceeds regardless: the wrapped
function is invoked on `args[0]->As<PARAM1_T>(), ..., args[n-1]->As<...>()`
(the `As<T>` coercion of a numeric parameter is `AsDouble`).  When fewer
than `n` arguments were supplied, those accesses index the `emp::vector` out
of bounds (debug assertion; modelled as a `none` result). -/
def convertFunN (nm : String) (n : Nat) (f : List Rat → RetVal)
    (args : List Entry) (h : Host) : List String × Option Entry :=
  let errs := if args.length ≠ n then [arityErrMsg nm n args.length] else []
  if n ≤ args.length then
    (errs, some (convertReturn (f ((args.take n).map (fun a => a.asDouble h)))))
  else (errs, none)

end EmplodeTools

namespace MABE

/-- Is the entry an owned primitive variable (`ConfigEntry_DoubleVar` or
`ConfigEntry_StringVar`), holding its value in its own storage rather than
through a reference to a host variable? -/
def Entry.isOwnedVar (e : Entry) : Bool :=
  match e.getVal with
  | .doubleVar _ => true
  | .stringVar _ => true
  | _ => false

/-- Is every entry of the list an owned primitive variable? -/
def allOwnedList (es : List Entry) : Bool :=
  es.all Entry.isOwnedVar

/-- Does the scope hold only owned primitive variables (no linked entries,
no sub-scopes)? -/
def ScopeBody.allOwned (b : ScopeBody) : Bool :=
  allOwnedList b.entryList && allOwnedList b.builtinList

/-- The `x` entry the root scope A declares in the three-level lookup
scenario of the spec (`AddValueVar("x", ...)` on A, whose notional scope id
is 100). -/
def entryAx : Entry := mkDoubleVar 0 "x" "x decl" (some 100)

/-- Scope C of the chain A contains B contains C: C declares nothing. -/
def bodyC3lvl : ScopeBody := emptyScopeBody ""

/-- Scope B of the chain: it declares only the sub-scope C. -/
def bodyB3lvl : ScopeBody :=
  (emptyScopeBody "").addEntry (mkScopeEntry 2 "C" "" (some 1) bodyC3lvl)

/-- Scope A of the chain: it declares `x` and the sub-scope B. -/
def bodyA3lvl : ScopeBody :=
  ((emptyScopeBody "").addEntry entryAx).addEntry
    (mkScopeEntry 1 "B" "" (some 100) bodyB3lvl)

/-- The chain of scope back pointers seen from C: C, then B, then A. -/
def chainFromC : List ScopeBody := [bodyC3lvl, bodyB3lvl, bodyA3lvl]

/-- A scope in which the name `x` is declared twice (two `AddValueVar`
calls allocating distinct entries, ids 0 and 1). -/
def dupScope : ScopeBody :=
  ((emptyScopeBody "").addEntry (mkDoubleVar 0 "x" "" none)).addEntry
    (mkDoubleVar 1 "x" "" none)

/-- A host store holding one numeric variable with value 2. -/
def hostLinked : Host := ⟨[2], []⟩

/-- A scope whose single declared child is linked to host numeric variable
0 (`LinkVar("n", var, ...)`). -/
def linkedScope : ScopeBody :=
  (emptyScopeBody "").addEntry (mkLinkedVar 0 "n" "" none 0)

/-- A scope whose single declared child is an owned double variable. -/
def ownedScope : ScopeBody :=
  (emptyScopeBody "").addEntry (mkDoubleVar 0 "x" "" none)

/-- An empty host store. -/
def host0 : Host := ⟨[], []⟩

/-- An owned double entry named `x` whose default text has been set to `"9"`
(`SetDefault("9")`), for the default-text write scenario. -/
def entryWithDefault : Entry := (mkDoubleVar 0 "x" "a var" none).setDefault "9"

end MABE

namespace EmplodeTools

open MABE

/-- The native function `add(a, b) = a + b` of the spec's example, as the
wrapped callable's numeric core. -/
def addFun (xs : List Rat) : Rat := xs.getD 0 0 + xs.getD 1 0

/-- The argument list holding Symbols with values 2 and 3. -/
def addArgs : List Entry := [makeTempSymbolNum 2, makeTempSymbolNum 3]

end EmplodeTools

namespace MABE

/-- Assigning a key in the map makes that key resolve to the assigned id. -/
theorem mapFind_mapAssign_self (m : List (String × Nat)) (k : String) (i : Nat) :
    mapFind (mapAssign m k i) k = some i := by
  induction m with
  | nil => simp [mapAssign, mapFind]
  | cons p rest ih =>
      obtain ⟨k2, j⟩ := p
      by_cases hk : k2 = k
      · simp [mapAssign, hk, mapFind]
      · simp [mapAssign, hk, mapFind, ih]

/-- An entry found by id in a list is a member of that list. -/
theorem findInList_mem {es : List Entry} {i : Nat} {e : Entry}
    (h : findInList es i = some e) : e ∈ es := by
  induction es with
  | nil => simp [findInList] at h
  | cons a rest ih =>
      by_cases hid : a.getId = i
      · simp [findInList, hid] at h
        exact h ▸ List.mem_cons_self a rest
      · simp [findInList, hid] at h
        exact List.mem_cons_of_mem a (ih h)

/-- Every entry a scope of non-temporary children hands out through its
local lookup is non-temporary. -/
theorem getLocal_nonTemporary (b : ScopeBody) (nm : String) (e : Entry)
    (hb : b.allNonTemporary = true) (h : b.getLocal nm = some e) :
    e.getTemporary = false := by
  unfold ScopeBody.allNonTemporary allNonTemporaryList at hb
  rw [Bool.and_eq_true] at hb
  obtain ⟨hb1, hb2⟩ := hb
  have hmem : e ∈ b.entryList ∨ e ∈ b.builtinList := by
    unfold ScopeBody.getLocal at h
    split at h
    · exact absurd h (by simp)
    · unfold ScopeBody.findById at h
      split at h
      · rename_i e1 h1
        have he : e1 = e := by simpa using h
        exact Or.inl (he ▸ findInList_mem h1)
      · exact Or.inr (findInList_mem h)
  cases hmem with
  | inl hm => simpa using (List.all_eq_true.mp hb1) e hm
  | inr hm => simpa using (List.all_eq_true.mp hb2) e hm

/-- `SetValue` on an owned primitive variable never touches the host
store. -/
theorem setValue_snd_of_owned (e : Entry) (v : Rat) (h : Host)
    (ho : e.isOwnedVar = true) : (e.setValue v h).2 = h := by
  cases e with
  | mk i n d dv sr t f lo hi io val =>
      cases val <;>
        simp [Entry.isOwnedVar, Entry.getVal] at ho <;>
        simp [Entry.setValue, Entry.getVal, Entry.withVal]

/-- Updating by id inside a list of owned primitive variables never touches
the host store. -/
theorem setValueInList_snd (es : List Entry) (i : Nat) (v : Rat) (h : Host)
    (ho : allOwnedList es = true) : (setValueInList es i v h).2 = h := by
  induction es with
  | nil => simp [setValueInList]
  | cons a rest ih =>
      unfold allOwnedList at ho
      rw [List.all_cons, Bool.and_eq_true] at ho
      obtain ⟨ha, hrest⟩ := ho
      by_cases hid : a.getId = i
      · simp [setValueInList, hid, setValue_snd_of_owned a v h ha]
      · simp [setValueInList, hid, ih hrest]

/-- Cloning preserves being an owned primitive variable. -/
theorem clone_isOwnedVar (e : Entry) : e.clone.isOwnedVar = e.isOwnedVar := by
  cases e with
  | mk i n d dv sr t f lo hi io val => cases val <;> rfl

/-- Cloning a list preserves holding only owned primitive variables. -/
theorem cloneList_allOwned (es : List Entry) :
    allOwnedList (cloneList es) = allOwnedList es := by
  induction es with
  | nil => rfl
  | cons a rest ih =>
      simp only [cloneList, allOwnedList, List.all_cons] at *
      rw [clone_isOwnedVar, ih]

/-- Cloning a scope preserves holding only owned primitive variables. -/
theorem cloneBody_allOwned (b : ScopeBody) :
    b.cloneBody.allOwned = b.allOwned := by
  cases b with
  | mk el bl m ty =>
      simp [ScopeBody.cloneBody, ScopeBody.allOwned, ScopeBody.entryList,
        ScopeBody.builtinList, cloneList_allOwned]

/-- `SetValue` through the map of a scope of owned primitive variables never
touches the host store. -/
theorem setChildValue_snd_of_owned (b : ScopeBody) (nm : String) (v : Rat)
    (h : Host) (ho : b.allOwned = true) : (b.setChildValue nm v h).2 = h := by
  unfold ScopeBody.allOwned at ho
  rw [Bool.and_eq_true] at ho
  obtain ⟨h1, h2⟩ := ho
  unfold ScopeBody.setChildValue
  cases hf : mapFind b.entryMap nm with
  | none => rfl
  | some i =>
      by_cases hc : containsId b.entryList i = true
      · simp [hc, setValueInList_snd _ _ _ _ h1]
      · simp [hc, setValueInList_snd _ _ _ _ h2]

end MABE

open MABE EmplodeTools

/-- C1: `LookupEntry(name, scan_outer)` first checks the scope's local map
and returns a local hit (inner declarations shadow outer ones); on a miss it
delegates to the parent scope exactly when `scan_outer` is true and a parent
exists, and otherwise returns the null result (the function is total, so no
exception is possible).  In the concrete three-level chain A contains B
contains C where only A declares `x`, `C.LookupEntry("x", true)` resolves
through B to A's `x`, and `C.LookupEntry("x", false)` returns absent. -/
theorem lookupEntry_scope_chain_C1 :
    (∀ (b : ScopeBody) (outer : List ScopeBody) (nm : String) (scan : Bool) (e : Entry),
        b.getLocal nm = some e → lookupEntryChain (b :: outer) nm scan = some e)
  ∧ (∀ (b : ScopeBody) (outer : List ScopeBody) (nm : String),
        b.getLocal nm = none → outer ≠ [] →
        lookupEntryChain (b :: outer) nm true = lookupEntryChain outer nm true)
  ∧ (∀ (b : ScopeBody) (nm : String) (scan : Bool),
        b.getLocal nm = none → lookupEntryChain [b] nm scan = none)
  ∧ (∀ (b : ScopeBody) (outer : List ScopeBody) (nm : String),
        b.getLocal nm = none → lookupEntryChain (b :: outer) nm false = none)
  ∧ lookupEntryChain chainFromC "x" true = some entryAx
  ∧ lookupEntryChain chainFromC "x" false = none := by
  refine ⟨?_, ?_, ?_, ?_, ?_, ?_⟩
  · intro b outer nm scan e h
    simp [lookupEntryChain, h]
  · intro b outer nm h hne
    cases outer with
    | nil => exact absurd rfl hne
    | cons o rest => simp [lookupEntryChain, h]
  · intro b nm scan h
    simp [lookupEntryChain, h]
  · intro b outer nm h
    simp [lookupEntryChain, h]
  · rfl
  · rfl

/-- Witness for C1: the local-hit case instantiated on the concrete root
scope A, plus the concrete scan-outer-false miss. -/
theorem lookupEntry_scope_chain_C1_witness :
    lookupEntryChain [bodyA3lvl] "x" true = some entryAx
    ∧ lookupEntryChain chainFromC "x" false = none :=
  ⟨lookupEntry_scope_chain_C1.1 bodyA3lvl [] "x" true entryAx rfl,
   lookupEntry_scope_chain_C1.2.2.2.2.2⟩

/-- C2 (code-bug demonstration): declaring the name `x` twice in one scope
does not fail: `Add` appends both entries to `entry_list` and silently
overwrites the map binding, so the local lookup afterwards returns the
second declared entry (id 1), not the first (id 0). -/
theorem duplicate_declaration_overwrites_C2 :
    dupScope.entryList.map Entry.getName = ["x", "x"]
    ∧ dupScope.entryList.map Entry.getId = [0, 1]
    ∧ mapFind dupScope.entryMap "x" = some 1
    ∧ (dupScope.getLocal "x").map Entry.getId = some 1 :=
  ⟨rfl, rfl, rfl, rfl⟩

/-- C3 counterexample: a scope whose child `n` is linked to host numeric
variable 0 (value 2).  After cloning the scope and setting the CLONE's child
to 7, the ORIGINAL scope's child also reads 7: original and clone share the
referenced host variable, so Clone() does not produce a sharing-free deep
copy for linked children. -/
theorem clone_linked_shares_host_C3_cex :
    linkedScope.childAsDouble "n" hostLinked = 2
    ∧ linkedScope.childAsDouble "n"
        (linkedScope.cloneBody.setChildValue "n" 7 hostLinked).2 = 7
    ∧ (7 : Rat) ≠ 2 :=
  ⟨rfl, rfl, by decide⟩

/-- C3 (amended): for a scope all of whose children are owned primitive
variables (double or string variables, not linked to host storage), cloning
shares no state: mutating a child through the clone leaves the host store —
and hence every value observable through the original — unchanged, and vice
versa. -/
theorem clone_independence_owned_C3 :
    ∀ (b : ScopeBody) (nm : String) (v : Rat) (h : Host),
      b.allOwned = true →
      ((b.cloneBody.setChildValue nm v h).2 = h
        ∧ b.childAsDouble nm (b.cloneBody.setChildValue nm v h).2
            = b.childAsDouble nm h)
      ∧ ((b.setChildValue nm v h).2 = h
        ∧ b.cloneBody.childAsDouble nm (b.setChildValue nm v h).2
            = b.cloneBody.childAsDouble nm h) := by
  intro b nm v h hb
  have hc : b.cloneBody.allOwned = true := by rw [cloneBody_allOwned]; exact hb
  have h1 := setChildValue_snd_of_owned b.cloneBody nm v h hc
  have h2 := setChildValue_snd_of_owned b nm v h hb
  exact ⟨⟨h1, by rw [h1]⟩, ⟨h2, by rw [h2]⟩⟩

/-- Witness for C3 (amended): the concrete owned-variable scope. -/
theorem clone_independence_owned_C3_witness :
    (ownedScope.cloneBody.setChildValue "x" 7 host0).2 = host0
    ∧ ownedScope.childAsDouble "x" (ownedScope.cloneBody.setChildValue "x" 7 host0).2
        = ownedScope.childAsDouble "x" host0 :=
  (clone_independence_owned_C3 ownedScope "x" 7 host0 rfl).1

/-- C10: `SetMax(max)` assigns the LOWER bound of the numeric range (its
body calls `range.SetLower(max)`), leaving the upper bound unchanged, and no
operation on a ConfigEntry ever modifies the range's upper bound, so a
stated maximum constraint is never recorded. -/
theorem setMax_sets_lower_bound_C10 :
    ∀ (e other : Entry) (m v : Rat) (s : String) (t : Bool) (h : Host),
      (e.setMax m).getRangeLo = m
      ∧ (e.setMax m).getRangeHi = e.getRangeHi
      ∧ (e.setMin m).getRangeLo = m
      ∧ (e.setMin m).getRangeHi = e.getRangeHi
      ∧ (e.setValue v h).1.getRangeHi = e.getRangeHi
      ∧ (e.setString s h).1.getRangeHi = e.getRangeHi
      ∧ (e.setName s).getRangeHi = e.getRangeHi
      ∧ (e.setDesc s).getRangeHi = e.getRangeHi
      ∧ (e.setDefault s).getRangeHi = e.getRangeHi
      ∧ (e.setTemporary t).getRangeHi = e.getRangeHi
      ∧ e.updateDefault.getRangeHi = e.getRangeHi
      ∧ (e.copyValue other h).1.getRangeHi = e.getRangeHi
      ∧ e.clone.getRangeHi = e.getRangeHi := by
  intro e other m v s t h
  cases e with
  | mk i n d dv sr tt fo lo hi io val =>
      cases val with
      | scope b =>
          cases b with
          | mk el bl mp ty =>
              exact ⟨rfl, rfl, rfl, rfl, rfl, rfl, rfl, rfl, rfl, rfl, rfl, rfl, rfl⟩
      | linked r =>
          exact ⟨rfl, rfl, rfl, rfl, rfl, rfl, rfl, rfl, rfl, rfl, rfl, rfl, rfl⟩
      | linkedStr r =>
          exact ⟨rfl, rfl, rfl, rfl, rfl, rfl, rfl, rfl, rfl, rfl, rfl, rfl, rfl⟩
      | doubleVar w =>
          exact ⟨rfl, rfl, rfl, rfl, rfl, rfl, rfl, rfl, rfl, rfl, rfl, rfl, rfl⟩
      | stringVar w =>
          exact ⟨rfl, rfl, rfl, rfl, rfl, rfl, rfl, rfl, rfl, rfl, rfl, rfl, rfl⟩

/-- C4: invoking a wrapped function with exactly the declared arity emits no
diagnostic and returns a freshly wrapped temporary Symbol holding the native
function's result on the coerced (`AsDouble`) arguments; the zero-arity
wrapper invoked on the empty list behaves the same; and the wrapping
Symbol's `AsDouble()` is exactly the computed result (so wrapping
`add(a,b) = a+b` and invoking on Symbols holding 2 and 3 yields 5). -/
theorem adapter_exact_arity_C4 :
    (∀ (nm : String) (n : Nat) (fnum : List Rat → Rat) (args : List Entry) (h : Host),
        args.length = n → 1 ≤ n →
        convertFunN nm n (fun xs => RetVal.num (fnum xs)) args h
          = ([], some (makeTempSymbolNum (fnum (args.map (fun a => a.asDouble h))))))
  ∧ (∀ f0 : Unit → Rat,
        convertFun0 (fun u => RetVal.num (f0 u)) []
          = ([], some (makeTempSymbolNum (f0 ()))))
  ∧ (∀ (v : Rat) (h : Host), (makeTempSymbolNum v).asDouble h = v) := by
  refine ⟨?_, ?_, ?_⟩
  · intro nm n fnum args h hlen _
    subst hlen
    simp [convertFunN, convertReturn, List.take_length]
  · intro f0
    rfl
  · intro v h
    rfl

/-- Witness for C4: wrapping `add(a,b) = a+b` and invoking on Symbols
holding 2 and 3 produces no diagnostic and a Symbol whose AsDouble is 5. -/
theorem adapter_exact_arity_C4_witness :
    (convertFunN "add" 2 (fun xs => RetVal.num (addFun xs)) addArgs host0).1 = []
    ∧ ((convertFunN "add" 2 (fun xs => RetVal.num (addFun xs)) addArgs host0).2.map
        (fun e => e.asDouble host0)) = some 5 := by
  have H := adapter_exact_arity_C4.1 "add" 2 addFun addArgs host0 rfl (by decide)
  constructor
  · rw [H]
  · rw [H]
    simp only [Option.map_some]
    have : addFun (addArgs.map (fun a => a.asDouble host0)) = 5 := by
      simp [addFun, addArgs, makeTempSymbolNum, Entry.setTemporary,
        Entry.asDouble, Entry.getVal, EntryVal.asDbl]
      norm_num
    rw [this]
    rfl

/-- C5 counterexample: invoking a zero-argument wrapped function with one
argument writes NOTHING to the error stream (the zero-arity specialization
checks the count only with `emp_assert`), and under debug semantics no
result is produced — against the claimed "report the function name, the
expected count and the received count and proceed". -/
theorem zero_arity_mismatch_no_report_C5_cex :
    (convertFun0 (fun _ => RetVal.num 0) [makeTempSymbolNum 1]).1 = []
    ∧ (convertFun0 (fun _ => RetVal.num 0) [makeTempSymbolNum 1]).2 = none :=
  ⟨rfl, rfl⟩

/-- C5 (amended): for a wrapped positional function of declared arity at
least one, a wrong argument count is reported to the error stream with the
function name, expected count and received count, and execution proceeds:
with more arguments than declared a well-defined result computed on the
first `n` arguments is still returned, while with fewer the subsequent
positional accesses run out of bounds (assertion; no result).  The
zero-arity wrapper never writes to the error stream, and a non-empty
argument list fails its assertion. -/
theorem arity_mismatch_diagnostic_C5 :
    (∀ (nm : String) (n : Nat) (f : List Rat → RetVal) (args : List Entry) (h : Host),
        1 ≤ n → args.length ≠ n →
        (convertFunN nm n f args h).1 = [arityErrMsg nm n args.length]
        ∧ (n ≤ args.length →
            (convertFunN nm n f args h).2
              = some (convertReturn (f ((args.take n).map (fun a => a.asDouble h)))))
        ∧ (args.length < n → (convertFunN nm n f args h).2 = none))
  ∧ (∀ (f0 : Unit → RetVal) (args : List Entry), (convertFun0 f0 args).1 = [])
  ∧ (∀ (f0 : Unit → RetVal) (args : List Entry),
        args.length ≠ 0 → (convertFun0 f0 args).2 = none) := by
  refine ⟨?_, ?_, ?_⟩
  · intro nm n f args h _ hne
    refine ⟨?_, ?_, ?_⟩
    · by_cases hle : n ≤ args.length
      · simp [convertFunN, hne, hle]
      · simp [convertFunN, hne, hle]
    · intro hle
      simp [convertFunN, hle, hne]
    · intro hlt
      have hnle : ¬ n ≤ args.length := by omega
      simp [convertFunN, hnle]
  · intro f0 args
    unfold convertFun0
    split <;> rfl
  · intro f0 args h0
    simp [convertFun0, h0]

/-- Witness for C5 (amended): arity-2 wrapper called with three arguments
reports name, expected and received counts; zero-arity wrapper called with
one argument produces no result. -/
theorem arity_mismatch_diagnostic_C5_witness :
    (convertFunN "f" 2 (fun _ => RetVal.num 0)
        [makeTempSymbolNum 1, makeTempSymbolNum 1, makeTempSymbolNum 1] host0).1
      = [arityErrMsg "f" 2 3]
    ∧ (convertFun0 (fun _ => RetVal.num 0) [makeTempSymbolNum 1, makeTempSymbolNum 1]).2
      = none :=
  ⟨(arity_mismatch_diagnostic_C5.1 "f" 2 (fun _ => RetVal.num 0)
      [makeTempSymbolNum 1, makeTempSymbolNum 1, makeTempSymbolNum 1] host0
      (by decide) (by decide)).1,
   arity_mismatch_diagnostic_C5.2.2 (fun _ => RetVal.num 0)
      [makeTempSymbolNum 1, makeTempSymbolNum 1] (by decide)⟩

/-- C6: return adaptation — a return value that is already a Symbol pointer
passes through `ConvertReturn` unchanged; a string or arithmetic return
value is wrapped in a fresh Symbol marked temporary holding that value (the
closedness of `RetVal` mirrors the `static_assert` rejecting every other
return type at compile time). -/
theorem convertReturn_adaptation_C6 :
    (∀ s : Entry, convertReturn (RetVal.symbol s) = s)
  ∧ (∀ (st : String) (h : Host),
        convertReturn (RetVal.str st) = makeTempSymbolStr st
        ∧ (makeTempSymbolStr st).getTemporary = true
        ∧ (makeTempSymbolStr st).asString h = st
        ∧ (makeTempSymbolStr st).getScopeRef = none)
  ∧ (∀ (v : Rat) (h : Host),
        convertReturn (RetVal.num v) = makeTempSymbolNum v
        ∧ (makeTempSymbolNum v).getTemporary = true
        ∧ (makeTempSymbolNum v).asDouble h = v
        ∧ (makeTempSymbolNum v).getScopeRef = none) :=
  ⟨fun _ => rfl,
   fun _ _ => ⟨rfl, rfl, rfl, rfl⟩,
   fun _ _ => ⟨rfl, rfl, rfl, rfl⟩⟩

/-- C7 counterexample: the Symbol produced by `MakeTemp(5)` is NOT unnamed —
its name is the placeholder `"__Temp"`. -/
theorem makeTemp_not_unnamed_C7_cex :
    ¬ ((makeTempSymbolNum 5).getName = "") := by
  decide

/-- C7 (amended): `MakeTemp(value)` allocates a new scope-less Symbol of the
matching primitive kind carrying the placeholder name `"__Temp"`, marked
temporary, holding `value`; every entry the scope-construction operations
allocate is non-temporary and those operations preserve a scope holding only
non-temporary children, so a temporary Symbol is absent from every such
scope's lookup table. -/
theorem makeTemp_temporary_scopeless_C7 :
    (∀ v : Rat,
        (makeTempSymbolNum v).getTemporary = true
        ∧ (makeTempSymbolNum v).getScopeRef = none
        ∧ (makeTempSymbolNum v).getName = "__Temp"
        ∧ ∀ h, (makeTempSymbolNum v).asDouble h = v)
  ∧ (∀ s : String,
        (makeTempSymbolStr s).getTemporary = true
        ∧ (makeTempSymbolStr s).getScopeRef = none
        ∧ (makeTempSymbolStr s).getName = "__Temp")
  ∧ (∀ (i : Nat) (nm d : String) (p : Option Nat) (r : Nat) (body : ScopeBody),
        (mkDoubleVar i nm d p).getTemporary = false
        ∧ (mkStringVar i nm d p).getTemporary = false
        ∧ (mkLinkedVar i nm d p r).getTemporary = false
        ∧ (mkLinkedStrVar i nm d p r).getTemporary = false
        ∧ (mkScopeEntry i nm d p body).getTemporary = false)
  ∧ (∀ (b : ScopeBody) (e : Entry),
        e.getTemporary = false → b.allNonTemporary = true →
        (b.addEntry e).allNonTemporary = true
        ∧ (b.addBuiltinEntry e).allNonTemporary = true)
  ∧ (∀ (b : ScopeBody) (nm : String) (v : Rat),
        b.allNonTemporary = true →
        b.getLocal nm ≠ some (makeTempSymbolNum v)) := by
  refine ⟨?_, ?_, ?_, ?_, ?_⟩
  · intro v
    exact ⟨rfl, rfl, rfl, fun _ => rfl⟩
  · intro s
    exact ⟨rfl, rfl, rfl⟩
  · intro i nm d p r body
    exact ⟨rfl, rfl, rfl, rfl, rfl⟩
  · intro b e hT hb
    cases b with
    | mk el bl m ty =>
        unfold ScopeBody.allNonTemporary allNonTemporaryList at hb ⊢
        rw [Bool.and_eq_true] at hb
        obtain ⟨hb1, hb2⟩ := hb
        simp only [ScopeBody.addEntry, ScopeBody.addBuiltinEntry,
          ScopeBody.entryList, ScopeBody.builtinList] at *
        constructor
        · rw [Bool.and_eq_true]
          exact ⟨by simp [List.all_append, hb1, hT], hb2⟩
        · rw [Bool.and_eq_true]
          exact ⟨hb1, by simp [List.all_append, hb2, hT]⟩
  · intro b nm v hb hcon
    have := getLocal_nonTemporary b nm _ hb hcon
    simp [makeTempSymbolNum, Entry.setTemporary, Entry.getTemporary] at this

/-- Witness for C7 (amended): a concretely built scope holds only
non-temporary entries, and its lookup never returns the temporary produced
by `MakeTemp(5)`. -/
theorem makeTemp_temporary_scopeless_C7_witness :
    ((ownedScope.addEntry (mkDoubleVar 1 "y" "" none)).allNonTemporary = true
      ∧ (ownedScope.addBuiltinEntry (mkDoubleVar 1 "y" "" none)).allNonTemporary = true)
    ∧ ownedScope.getLocal "x" ≠ some (makeTempSymbolNum 5) :=
  ⟨makeTemp_temporary_scopeless_C7.2.2.2.1 ownedScope (mkDoubleVar 1 "y" "" none) rfl rfl,
   makeTemp_temporary_scopeless_C7.2.2.2.2 ownedScope "x" 5 rfl⟩

/-- C8: writing a scope emits the opener `prefix name = { ` (with the
aligned description comment when present), then recursively writes ONLY the
declared children via `WriteContents` with the prefix extended by two
spaces, then the closing `prefix }`; the output is entirely independent of
the built-in list and of the lookup map, yet a built-in added with
`AddBuiltin` is reachable through the lookup map. -/
theorem scope_write_declared_only_C8 :
    (∀ (i : Nat) (nm ds dv : String) (sr : Option Nat) (t : Bool) (fo : Format)
        (lo hi : Rat) (io : Bool) (el bl : List Entry)
        (m : List (String × Nat)) (ty : String) (h : Host) (ind : String) (off : Nat),
        entryWrite (Entry.mk i nm ds dv sr t fo lo hi io
            (.scope (.mk el bl m ty))) h ind off
          = ind ++ nm ++ " = \x7b "
            ++ (if ds ≠ "" then
                  spaces (off - (ind.length + nm.length + 5)) ++ "// " ++ ds
                else "")
            ++ "\n"
            ++ (ScopeBody.mk el bl m ty).writeContents h (ind ++ "  ") off
            ++ ind ++ "\x7d\n")
  ∧ (∀ (i : Nat) (nm ds dv : String) (sr : Option Nat) (t : Bool) (fo : Format)
        (lo hi : Rat) (io : Bool) (el bl bl2 : List Entry)
        (m m2 : List (String × Nat)) (ty : String) (h : Host) (ind : String) (off : Nat),
        entryWrite (Entry.mk i nm ds dv sr t fo lo hi io
            (.scope (.mk el bl m ty))) h ind off
          = entryWrite (Entry.mk i nm ds dv sr t fo lo hi io
            (.scope (.mk el bl2 m2 ty))) h ind off)
  ∧ (∀ (b : ScopeBody) (e : Entry),
        mapFind (b.addBuiltinEntry e).entryMap e.getName = some e.getId) := by
  refine ⟨?_, ?_, ?_⟩
  · intro i nm ds dv sr t fo lo hi io el bl m ty h ind off
    rfl
  · intro i nm ds dv sr t fo lo hi io el bl bl2 m m2 ty h ind off
    rfl
  · intro b e
    cases b with
    | mk el bl m ty =>
        simpa [ScopeBody.addBuiltinEntry, ScopeBody.entryMap]
          using mapFind_mapAssign_self m e.getName e.getId

/-- C9: when a non-scope entry's stored default text is non-empty, `Write`
emits that default text rather than the current value — so the re-emitted
line is unchanged by `SetValue`/`SetString` — and the current value
(`AsString()`) is emitted exactly when the default text is empty. -/
theorem write_uses_default_text_C9 :
    ∀ (e : Entry) (h : Host) (ind : String) (off : Nat) (v : Rat) (s : String),
      e.isScope = false →
      ((e.getDefaultVal ≠ "" →
          entryWrite e h ind off
            = ind ++ e.getName ++ " = " ++ e.getDefaultVal ++ ";"
              ++ (if e.getDesc ≠ "" then
                    spaces (off - (ind.length + e.getName.length + 3
                      + e.getDefaultVal.length + 1)) ++ "// " ++ e.getDesc
                  else "") ++ "\n"
          ∧ entryWrite (e.setValue v h).1 (e.setValue v h).2 ind off
              = entryWrite e h ind off
          ∧ entryWrite (e.setString s h).1 (e.setString s h).2 ind off
              = entryWrite e h ind off)
      ∧ (e.getDefaultVal = "" →
          entryWrite e h ind off
            = ind ++ e.getName ++ " = " ++ e.asString h ++ ";"
              ++ (if e.getDesc ≠ "" then
                    spaces (off - (ind.length + e.getName.length + 3
                      + (e.asString h).length + 1)) ++ "// " ++ e.getDesc
                  else "") ++ "\n")) := by
  intro e h ind off v s hsc
  cases e with
  | mk i n d dv sr t fo lo hi io val =>
      cases val with
      | scope b => simp [Entry.isScope, Entry.getVal] at hsc
      | linked r =>
          constructor
          · intro hdv
            simp only [Entry.getDefaultVal] at hdv
            refine ⟨?_, ?_, ?_⟩ <;>
              simp [entryWrite, baseWrite, Entry.setValue, Entry.setString,
                Entry.getVal, Entry.withVal, Entry.getName, Entry.getDesc,
                Entry.getDefaultVal, hdv, String.append_assoc]
          · intro hdv
            simp only [Entry.getDefaultVal] at hdv
            subst hdv
            simp [entryWrite, baseWrite, Entry.getName, Entry.getDesc,
              Entry.getDefaultVal, Entry.asString, Entry.getVal,
              String.append_assoc]
      | linkedStr r =>
          constructor
          · intro hdv
            simp only [Entry.getDefaultVal] at hdv
            refine ⟨?_, ?_, ?_⟩ <;>
              simp [entryWrite, baseWrite, Entry.setValue, Entry.setString,
                Entry.getVal, Entry.withVal, Entry.getName, Entry.getDesc,
                Entry.getDefaultVal, hdv, String.append_assoc]
          · intro hdv
            simp only [Entry.getDefaultVal] at hdv
            subst hdv
            simp [entryWrite, baseWrite, Entry.getName, Entry.getDesc,
              Entry.getDefaultVal, Entry.asString, Entry.getVal,
              String.append_assoc]
      | doubleVar w =>
          constructor
          · intro hdv
            simp only [Entry.getDefaultVal] at hdv
            refine ⟨?_, ?_, ?_⟩ <;>
              simp [entryWrite, baseWrite, Entry.setValue, Entry.setString,
                Entry.getVal, Entry.withVal, Entry.getName, Entry.getDesc,
                Entry.getDefaultVal, hdv, String.append_assoc]
          · intro hdv
            simp only [Entry.getDefaultVal] at hdv
            subst hdv
            simp [entryWrite, baseWrite, Entry.getName, Entry.getDesc,
              Entry.getDefaultVal, Entry.asString, Entry.getVal,
              String.append_assoc]
      | stringVar w =>
          constructor
          · intro hdv
            simp only [Entry.getDefaultVal] at hdv
            refine ⟨?_, ?_, ?_⟩ <;>
              simp [entryWrite, baseWrite, Entry.setValue, Entry.setString,
                Entry.getVal, Entry.withVal, Entry.getName, Entry.getDesc,
                Entry.getDefaultVal, hdv, String.append_assoc]
          · intro hdv
            simp only [Entry.getDefaultVal] at hdv
            subst hdv
            simp [entryWrite, baseWrite, Entry.getName, Entry.getDesc,
              Entry.getDefaultVal, Entry.asString, Entry.getVal,
              String.append_assoc]

/-- Witness for C9: the concrete entry with default text `"9"`; its written
line is unchanged by `SetValue(3)`. -/
theorem write_uses_default_text_C9_witness :
    entryWrite ((entryWithDefault.setValue 3 host0).1)
        ((entryWithDefault.setValue 3 host0).2) "" 40
      = entryWrite entryWithDefault host0 "" 40 :=
  ((write_uses_default_text_C9 entryWithDefault host0 "" 40 3 "s" rfl).1
    (by decide)).2.1
